import Mathlib

/-!
Verification of the multi-stream audio capture and merge subsystem of the
meeting-assistant repository.

The development shallowly embeds:
* `core/utils/audio_utils.py` (`merge_audio_files`),
* `core/recorders/multi_recorder.py` (`MultiRecorder`),
* `core/recorders/legacy_recorder.py` (`LegacyRecorder`),
* `core/recorders/native_recorder.py` (`NativeRecorder`).

Audio samples are modelled as rationals (the Python code works on float
arrays read by soundfile; the claims under scrutiny concern exact
arithmetic identities such as zero-padding, summation and peak
normalisation, which the rationals model exactly).
-/

namespace MeetingAssistant

/-! ## Audio data model

`soundfile.read` returns a 1-dimensional array for a mono file and a
2-dimensional array (frames x channels) for a multi-channel file.  We
model a decoded stream as a frame list together with its channel count
and sample rate.  For a mono stream each frame holds exactly one sample;
for a stream of `c > 1` channels each frame holds `c` samples. -/

structure Audio where
  channels : ℕ
  frames : List (List ℚ)
  samplerate : ℕ
  deriving Repr, DecidableEq

/-- Embeds the mono-reduction step of `merge_audio_files` (audio_utils.py
lines 33-38): `if len(data.shape) > 1 and data.shape[1] > 1:
data = np.mean(data, axis=1)`.  A multi-channel stream is reduced by
averaging each frame over its channel count; a mono stream (1-D array)
is passed through. -/
def monoOf (a : Audio) : List ℚ :=
  if 1 < a.channels then
    a.frames.map (fun fr => fr.sum / (a.channels : ℚ))
  else
    a.frames.map (fun fr => fr.headD 0)

/-- The mono-reduced streams, in input order (`audio_data` in the code). -/
def monos (inputs : List Audio) : List (List ℚ) :=
  inputs.map monoOf

/-- `max_len` of audio_utils.py line 40: the running maximum of the
mono-reduced lengths, starting from 0. -/
def maxLen (ls : List (List ℚ)) : ℕ :=
  ls.foldl (fun m l => max m l.length) 0

/-- Embeds `padded = np.zeros(max_len); padded[:len(data)] = data`
(audio_utils.py lines 46-47): pad a stream with trailing zeros up to
length `n`. -/
def padTo (n : ℕ) (l : List ℚ) : List ℚ :=
  l ++ List.replicate (n - l.length) 0

/-- Samplewise addition of two equal-length sample vectors
(`mixed_audio += padded`, audio_utils.py line 48). -/
def addLists (xs ys : List ℚ) : List ℚ :=
  List.zipWith (· + ·) xs ys

/-- Embeds the mixing loop of audio_utils.py lines 43-48:
`mixed_audio = np.zeros(max_len)` then, for every mono-reduced stream,
zero-pad it to `max_len` and add it samplewise into the accumulator. -/
def mixedOf (inputs : List Audio) : List ℚ :=
  (monos inputs).foldl
    (fun acc m => addLists acc (padTo (maxLen (monos inputs)) m))
    (List.replicate (maxLen (monos inputs)) 0)

/-- `np.max(np.abs(v))` for a non-empty `v`; on an empty list this model
returns 0, and `merge_audio_files` below never consults it there because
`np.max` of an empty array raises in the source. -/
def maxAbs (l : List ℚ) : ℚ :=
  l.foldr (fun x m => max |x| m) 0

/-- Embeds the normalisation step of audio_utils.py lines 50-55:
`max_val = np.max(np.abs(mixed_audio)); if max_val > 1.0:
mixed_audio = mixed_audio / max_val`. -/
def normalizedOf (inputs : List Audio) : List ℚ :=
  if 1 < maxAbs (mixedOf inputs) then
    (mixedOf inputs).map (fun x => x / maxAbs (mixedOf inputs))
  else
    mixedOf inputs

/-- Embeds the `target_samplerate` accumulation of audio_utils.py lines
22-31: starts at 0 and takes the first nonzero input sample rate
(mismatches only print a warning). -/
def targetSamplerate (inputs : List Audio) : ℕ :=
  inputs.foldl (fun t a => if t = 0 then a.samplerate else t) 0

/-- Embeds `merge_audio_files` of core/utils/audio_utils.py.
* empty input list: `raise ValueError("No input files provided for merging")`;
* a single input: read and rewrite the data unchanged (lines 14-18);
* otherwise: mono-reduce, zero-pad, sum, normalise when the peak exceeds
  1.0, and write the result as a mono stream at `target_samplerate`.
When every stream is empty (`max_len == 0`) the source raises inside
`np.max` on a zero-size array (line 53) before writing anything, which
the model renders as an error value. -/
def merge_audio_files (inputs : List Audio) : Except String Audio :=
  if inputs = [] then
    .error "No input files provided for merging"
  else if inputs.length = 1 then
    .ok (inputs.headD ⟨1, [], 0⟩)
  else if maxLen (monos inputs) = 0 then
    .error "zero-size array to reduction operation maximum"
  else
    .ok { channels := 1
          frames := (normalizedOf inputs).map (fun x => [x])
          samplerate := targetSamplerate inputs }

/-! ## Capture source state machines

`core/recorders/legacy_recorder.py` and `core/recorders/native_recorder.py`
are stateful; we embed the state each one mutates and its `stop` method as
a state transition.  Prints are not modelled (they touch no state and no
files). -/

/-- State of a `LegacyRecorder` (legacy_recorder.py): `_recording` is set
by `record` and cleared in its `finally` block; `_stop_event` is the
threading event polled by the consumer loop. -/
structure LegacyState where
  recording : Bool
  stopEventSet : Bool
  deriving Repr, DecidableEq

/-- Embeds `LegacyRecorder.stop` (legacy_recorder.py lines 102-106):
`if self._recording: self._stop_event.set()`; otherwise nothing happens. -/
def LegacyState.stop (s : LegacyState) : LegacyState :=
  if s.recording then { s with stopEventSet := true } else s

/-- State of a `NativeRecorder` (native_recorder.py): `is_writing`, the
`_stop_event`, whether the capture stream and the asset writer objects
exist, and whether each has been shut down. -/
structure NativeState where
  isWriting : Bool
  stopEventSet : Bool
  hasStream : Bool
  hasWriter : Bool
  streamStopped : Bool
  writerFinished : Bool
  deriving Repr, DecidableEq

/-- Embeds `NativeRecorder.stop` (native_recorder.py lines 269-305):
`if not self.is_writing: return`, then clear `is_writing`, set the stop
event, stop the capture stream when present and finalise the writer when
present. -/
def NativeState.stop (s : NativeState) : NativeState :=
  if s.isWriting then
    { s with
      isWriting := false
      stopEventSet := true
      streamStopped := s.hasStream || s.streamStopped
      writerFinished := s.hasWriter || s.writerFinished }
  else s

/-- A sub-recorder owned by a `MultiRecorder` is either a legacy or a
native capture source. -/
inductive SubState where
  | legacy (s : LegacyState)
  | native (s : NativeState)
  deriving Repr, DecidableEq

/-- Dispatch `stop` to the concrete sub-recorder (the loop body of
multi_recorder.py lines 95-99; the surrounding try/except only logs). -/
def SubState.stop : SubState → SubState
  | .legacy s => .legacy s.stop
  | .native s => .native s.stop

/-- State of a `MultiRecorder` as set up by `MultiRecorder.__init__`
(multi_recorder.py lines 14-20). -/
structure MultiState where
  recorders : List SubState
  isRecording : Bool
  outputPaths : List String
  outputDir : String
  finalFilename : String
  deriving Repr, DecidableEq

/-- Embeds `MultiRecorder.__init__` (multi_recorder.py lines 14-20): the
constructor stores the list and initial fields and performs no
validation whatsoever — it cannot fail, whatever the list. -/
def MultiRecorder.init (recorders : List SubState) :
    Except String MultiState :=
  .ok { recorders := recorders
        isRecording := false
        outputPaths := []
        outputDir := "output"
        finalFilename := "recording.wav" }

/-- Embeds the entry guard of `MultiRecorder.record` (multi_recorder.py
lines 27-34): an empty recorder list raises `ValueError`; otherwise the
session state is reset and recording begins. -/
def MultiState.recordStart (s : MultiState) (outputDir filename : String) :
    Except String MultiState :=
  if s.recorders = [] then
    .error "MultiRecorder initialized with no sub-recorders"
  else
    .ok { s with
          isRecording := true
          outputPaths := []
          outputDir := outputDir
          finalFilename := filename }

/-- Embeds `MultiRecorder.stop` (multi_recorder.py lines 87-102):
`if not self._is_recording: return`, else stop every sub-recorder and
clear the flag so `record` proceeds to the merge. -/
def MultiState.stop (s : MultiState) : MultiState :=
  if s.isRecording then
    { s with
      recorders := s.recorders.map SubState.stop
      isRecording := false }
  else s

/-! ## Join phase of `MultiRecorder.record`

multi_recorder.py lines 57-59 join each capture thread with
`t.join(timeout=10)`.  Time is discrete; a thread is described by the
time at which it terminates (`some v`) or by `none` when it never
terminates (a hung platform call).  `join` on one thread, entered at
time `t`, returns at the thread termination time when that falls inside
the timeout window and at the window end otherwise. -/

/-- Return time of `t.join(timeout=T)` entered at time `t` on a thread
that finishes at `f`. -/
def joinDeadline (T t : ℕ) (f : Option ℕ) : ℕ :=
  match f with
  | some v => max t (min v (t + T))
  | none => t + T

/-- Return time of the join loop of multi_recorder.py lines 58-59 over
the listed threads, entered at time `t`. -/
def joinAll (T t : ℕ) (fs : List (Option ℕ)) : ℕ :=
  fs.foldl (joinDeadline T) t

/-- A thread with finish time `f` is still alive at time `t`. -/
def threadAlive (f : Option ℕ) (t : ℕ) : Bool :=
  match f with
  | some v => t < v
  | none => true

/-! ## Error propagation out of `record`

The body of each `record` is a try block; we embed which outcome of the
recording loop reaches the caller as an exception. -/

/-- What happened inside the recording loop of a capture source. -/
inductive RecordOutcome where
  | success
  | keyboardInterrupt
  | platformError (msg : String)
  deriving Repr, DecidableEq

/-- Embeds the exception handling of `LegacyRecorder.record`
(legacy_recorder.py lines 72-100): `KeyboardInterrupt` is caught and the
path is returned; any other exception is logged and re-raised
(`raise`, line 92). -/
def LegacyRecorder.recordResult (filepath : String) (o : RecordOutcome) :
    Except String String :=
  match o with
  | .success => .ok filepath
  | .keyboardInterrupt => .ok filepath
  | .platformError msg => .error msg

/-- Embeds the exception handling of `NativeRecorder.record`
(native_recorder.py lines 229-267): both `KeyboardInterrupt` and every
other exception are caught and only logged; after the `finally` block
runs `stop`, the method falls through to `return filepath` in every
case. -/
def NativeRecorder.recordResult (filepath : String) (o : RecordOutcome) :
    Except String String :=
  match o with
  | .success => .ok filepath
  | .keyboardInterrupt => .ok filepath
  | .platformError _ => .ok filepath

/-! ## Merge phase of `MultiRecorder.record` -/

/-- A collected per-source output path together with what the filesystem
says about it when the merge phase inspects it. -/
structure PartFile where
  path : String
  existsOnDisk : Bool
  size : ℕ
  deriving Repr, DecidableEq

/-- Embeds the filtering of multi_recorder.py line 67: keep the paths
that exist and exceed the 44-byte WAV header threshold. -/
def validPaths (files : List PartFile) : List String :=
  (files.filter (fun f => f.existsOnDisk && decide (44 < f.size))).map
    (fun f => f.path)

/-- Embeds the merge phase of `MultiRecorder.record` (multi_recorder.py
lines 65-85).  `files` models `self.output_paths` with their on-disk
status; `merge` is the call to `merge_audio_files`.  If no valid path
remains the phase returns the empty string; if the merger raises, the
except branch returns `self.output_paths[0]` when the list is non-empty
and the empty string otherwise; a successful merge returns the merged
path. -/
def mergePhase (files : List PartFile)
    (merge : List String → Except String String) : String :=
  let valid := validPaths files
  if valid.isEmpty then ""
  else
    match merge valid with
    | .ok p => p
    | .error _ => (files.map (fun f => f.path)).headD ""

lemma le_joinAll (T : ℕ) (fs : List (Option ℕ)) :
    ∀ t : ℕ, t ≤ joinAll T t fs := by
  induction fs with
  | nil => intro t; simp [joinAll]
  | cons g tl ih =>
      intro t
      have h1 : t ≤ joinDeadline T t g := by
        cases g with
        | none => simp [joinDeadline]
        | some v => simp only [joinDeadline]; omega
      exact le_trans h1 (ih (joinDeadline T t g))

lemma maxAbs_nonneg (l : List ℚ) : 0 ≤ maxAbs l := by
  induction l with
  | nil => simp [maxAbs]
  | cons x tl ih =>
      simp only [maxAbs, List.foldr_cons] at *
      exact le_max_of_le_right ih

lemma maxAbs_map_div (l : List ℚ) (c : ℚ) (hc : 0 < c) :
    maxAbs (l.map fun x => x / c) = maxAbs l / c := by
  induction l with
  | nil => simp [maxAbs]
  | cons x tl ih =>
      simp only [List.map_cons, maxAbs, List.foldr_cons] at *
      rw [ih, abs_div, abs_of_pos hc, max_div_div_right hc.le]

lemma padTo_length (n : ℕ) (l : List ℚ) (h : l.length ≤ n) :
    (padTo n l).length = n := by
  simp only [padTo, List.length_append, List.length_replicate]
  omega

lemma addLists_length (xs ys : List ℚ) :
    (addLists xs ys).length = min xs.length ys.length := by
  simp [addLists]

lemma addLists_getD (xs ys : List ℚ) (h : xs.length = ys.length) (i : ℕ) :
    (addLists xs ys).getD i 0 = xs.getD i 0 + ys.getD i 0 := by
  induction xs generalizing ys i with
  | nil =>
      have : ys = [] := by
        cases ys with
        | nil => rfl
        | cons y t => simp at h
      subst this; simp [addLists]
  | cons x t ih =>
      cases ys with
      | nil => simp at h
      | cons y u =>
          cases i with
          | zero => simp [addLists]
          | succ j =>
              have h' : t.length = u.length := by simpa using h
              simpa [addLists] using ih u h' j

lemma replicate_getD (n i : ℕ) : (List.replicate n (0 : ℚ)).getD i 0 = 0 := by
  induction n generalizing i with
  | zero => simp
  | succ m ih =>
      cases i with
      | zero => simp [List.replicate]
      | succ j => simp [List.replicate, ih j]

lemma getD_map_singleton (l : List ℚ) (i : ℕ) (h : i < l.length) :
    (l.map (fun x => [x])).getD i [] = [l.getD i 0] := by
  induction l generalizing i with
  | nil => simp at h
  | cons x t ih =>
      cases i with
      | zero => simp
      | succ j =>
          simp only [List.map_cons, List.getD_cons_succ]
          exact ih j (by simpa using h)

lemma padTo_getD (n : ℕ) (l : List ℚ) (i : ℕ) :
    (padTo n l).getD i 0 = l.getD i 0 := by
  by_cases hi : i < l.length
  · exact List.getD_append _ _ _ _ hi
  · push_neg at hi
    rw [padTo, List.getD_append_right _ _ _ _ hi, replicate_getD,
      List.getD_eq_default _ _ hi]

end MeetingAssistant

namespace MeetingAssistant

/-- C10: calling the merger with an empty input list raises `ValueError`
before any file is read or written: the result is the error value and no
output audio is produced. -/
theorem merge_empty_input_rejected :
    merge_audio_files [] = .error "No input files provided for merging" := rfl

/-- C4: with a single-element input list, `merge_audio_files` copies the
input through unchanged: the output audio equals the input audio exactly
(same channel count, same frames, same sample rate), with no mixing,
channel reduction or normalisation. -/
theorem merge_single_input_identity (a : Audio) :
    merge_audio_files [a] = .ok a := by
  simp [merge_audio_files]

/-- C1: for every multi-input merge whose mixed signal is non-empty, the
written output is the normalised signal, and that signal is the plain sum
divided by its peak exactly when the peak exceeds 1.0 — in which case the
output peak equals 1.0 exactly — and is the unscaled sum otherwise. -/
theorem merge_normalizes_iff_peak_exceeds_one (inputs : List Audio)
    (h2 : 2 ≤ inputs.length) (hn : maxLen (monos inputs) ≠ 0) :
    merge_audio_files inputs =
      .ok { channels := 1
            frames := (normalizedOf inputs).map (fun x => [x])
            samplerate := targetSamplerate inputs } ∧
    (1 < maxAbs (mixedOf inputs) →
      normalizedOf inputs =
        (mixedOf inputs).map (fun x => x / maxAbs (mixedOf inputs)) ∧
      maxAbs (normalizedOf inputs) = 1) ∧
    (maxAbs (mixedOf inputs) ≤ 1 → normalizedOf inputs = mixedOf inputs) := by
  have hne : inputs ≠ [] := by
    intro h; rw [h] at h2; simp at h2
  have hl1 : inputs.length ≠ 1 := by omega
  refine ⟨?_, ?_, ?_⟩
  · simp [merge_audio_files, hne, hl1, hn]
  · intro hpk
    have hpos : 0 < maxAbs (mixedOf inputs) := lt_trans one_pos hpk
    constructor
    · simp [normalizedOf, hpk]
    · rw [normalizedOf, if_pos hpk, maxAbs_map_div _ _ hpos,
        div_self (ne_of_gt hpos)]
  · intro hpk
    rw [normalizedOf, if_neg (not_lt.mpr hpk)]

/-- Witness for `merge_normalizes_iff_peak_exceeds_one` at the concrete
pair of mono streams `[1]` and `[3/2]`: the sum `[5/2]` clips, so the
written output is `[1]` with peak exactly 1. -/
theorem merge_normalizes_iff_peak_exceeds_one_witness :
    merge_audio_files
        [⟨1, [[1]], 48000⟩, ⟨1, [[3/2]], 48000⟩] =
      .ok { channels := 1
            frames := (normalizedOf
              [⟨1, [[1]], 48000⟩, ⟨1, [[3/2]], 48000⟩]).map (fun x => [x])
            samplerate := targetSamplerate
              [⟨1, [[1]], 48000⟩, ⟨1, [[3/2]], 48000⟩] } ∧
    maxAbs (normalizedOf [⟨1, [[1]], 48000⟩, ⟨1, [[3/2]], 48000⟩]) = 1 := by
  have h := merge_normalizes_iff_peak_exceeds_one
    [⟨1, [[1]], 48000⟩, ⟨1, [[3/2]], 48000⟩] (by decide)
    (by decide)
  refine ⟨h.1, (h.2.1 ?_).2⟩
  norm_num [mixedOf, monos, monoOf, maxLen, padTo, addLists, maxAbs,
    abs_of_nonneg]

/-- C2 counterexample: `merge_audio_files` on the single-element list
holding a stereo stream copies the stream through unchanged, so the
output has channel count 2, not 1 — the single-input case of the merger
does not produce a mono artifact. -/
theorem single_stereo_input_passes_through_stereo :
    merge_audio_files [⟨2, [[1/2, 1/4]], 48000⟩] =
      .ok ⟨2, [[1/2, 1/4]], 48000⟩ ∧ (2 : ℕ) ≠ 1 := by
  constructor
  · simp [merge_audio_files]
  · decide

/-- C2 amended: for every merge of at least two input streams that
produces an output, the output artifact has channel count 1 (mono); each
multi-channel input was reduced by channel averaging inside `monoOf`. -/
theorem multi_input_merge_is_mono (inputs : List Audio)
    (h2 : 2 ≤ inputs.length) (hn : maxLen (monos inputs) ≠ 0) :
    (merge_audio_files inputs).map Audio.channels = Except.ok 1 := by
  have hne : inputs ≠ [] := by
    intro h; rw [h] at h2; simp at h2
  have hl1 : inputs.length ≠ 1 := by omega
  simp [merge_audio_files, hne, hl1, hn, Except.map]

/-- Witness for `multi_input_merge_is_mono`: merging a stereo stream with
a mono stream yields a mono output. -/
theorem multi_input_merge_is_mono_witness :
    (merge_audio_files
        [⟨2, [[1, 0]], 48000⟩, ⟨1, [[1/2]], 48000⟩]).map Audio.channels =
      Except.ok 1 :=
  multi_input_merge_is_mono
    [⟨2, [[1, 0]], 48000⟩, ⟨1, [[1/2]], 48000⟩] (by decide) (by decide)

/-- C3 counterexample: merging the mono streams `[2]` and `[0, 3]`
(lengths 1 < 2) gives the sum `[2, 3]` whose peak 3 exceeds 1, so the
output is normalised to `[2/3, 1]`: the sample at index 1 is 1, not the
second stream amplitude 3 — past-the-first-stream samples do not equal
the second stream alone once normalisation fires. -/
theorem normalization_breaks_tail_equality :
    (merge_audio_files
        [⟨1, [[2]], 48000⟩, ⟨1, [[0], [3]], 48000⟩]).map
        (fun out => out.frames.getD 1 []) = Except.ok [(1 : ℚ)] ∧
    (monoOf ⟨1, [[0], [3]], 48000⟩).getD 1 0 = 3 ∧ ((1 : ℚ) ≠ 3) := by
  refine ⟨?_, by norm_num [monoOf], by norm_num⟩
  have hmix : mixedOf [⟨1, [[2]], 48000⟩, ⟨1, [[0], [3]], 48000⟩] =
      [2, 3] := by
    norm_num [mixedOf, monos, monoOf, maxLen, padTo, addLists,
      List.replicate]
  have hpk : maxAbs (mixedOf
      [⟨1, [[2]], 48000⟩, ⟨1, [[0], [3]], 48000⟩]) = 3 := by
    rw [hmix]; norm_num [maxAbs, abs_of_nonneg]
  have hnorm : normalizedOf
      [⟨1, [[2]], 48000⟩, ⟨1, [[0], [3]], 48000⟩] = [2/3, 1] := by
    rw [normalizedOf, hpk, if_pos (by norm_num), hmix]
    norm_num
  have hml : maxLen (monos
      [⟨1, [[2]], 48000⟩, ⟨1, [[0], [3]], 48000⟩]) = 2 := by
    norm_num [maxLen, monos, monoOf]
  simp [merge_audio_files, hml, hnorm, Except.map]

/-- C3 amended: for two inputs whose mono-reduced lengths satisfy
L1 < L2, the merged output has length L2, and — provided the summed
signal does not clip, so no normalisation is applied — every output
sample at an index at least L1 equals the second stream amplitude alone
(the exhausted first stream contributes its zero padding there). -/
theorem merge_tail_equals_second_stream (a b : Audio)
    (hlen : (monoOf a).length < (monoOf b).length) :
    ∃ out, merge_audio_files [a, b] = Except.ok out
      ∧ out.frames.length = (monoOf b).length
      ∧ (maxAbs (mixedOf [a, b]) ≤ 1 →
          ∀ i, (monoOf a).length ≤ i → i < (monoOf b).length →
            out.frames.getD i [] = [(monoOf b).getD i 0]) := by
  have hmonos : monos [a, b] = [monoOf a, monoOf b] := by simp [monos]
  have hmax : maxLen (monos [a, b]) = (monoOf b).length := by
    rw [hmonos]
    simp only [maxLen, List.foldl_cons, List.foldl_nil]
    omega
  have hmix : mixedOf [a, b] =
      addLists
        (addLists (List.replicate (monoOf b).length 0)
          (padTo (monoOf b).length (monoOf a)))
        (padTo (monoOf b).length (monoOf b)) := by
    rw [mixedOf, hmax, hmonos]
    simp only [List.foldl_cons, List.foldl_nil]
  have hp1 : (padTo (monoOf b).length (monoOf a)).length =
      (monoOf b).length := padTo_length _ _ hlen.le
  have hp2 : (padTo (monoOf b).length (monoOf b)).length =
      (monoOf b).length := padTo_length _ _ le_rfl
  have hmixlen : (mixedOf [a, b]).length = (monoOf b).length := by
    rw [hmix]
    simp [addLists_length, hp1, hp2]
  have hnormlen : (normalizedOf [a, b]).length = (monoOf b).length := by
    rw [normalizedOf]
    split
    · simp [hmixlen]
    · exact hmixlen
  have hml0 : maxLen (monos [a, b]) ≠ 0 := by omega
  refine ⟨⟨1, (normalizedOf [a, b]).map (fun x => [x]),
      targetSamplerate [a, b]⟩, ?_, ?_, ?_⟩
  · simp [merge_audio_files, hml0]
  · simp [hnormlen]
  · intro hpk i hi1 hi2
    have hnorm : normalizedOf [a, b] = mixedOf [a, b] := by
      rw [normalizedOf, if_neg (not_lt.mpr hpk)]
    have hi3 : i < (normalizedOf [a, b]).length := by
      rw [hnormlen]; exact hi2
    have h1 : (List.replicate (monoOf b).length (0 : ℚ)).length =
        (padTo (monoOf b).length (monoOf a)).length := by
      simp [hp1]
    have h2 : (addLists (List.replicate (monoOf b).length (0 : ℚ))
        (padTo (monoOf b).length (monoOf a))).length =
        (padTo (monoOf b).length (monoOf b)).length := by
      simp [addLists_length, hp1, hp2]
    rw [getD_map_singleton _ _ hi3, hnorm, hmix, addLists_getD _ _ h2,
      addLists_getD _ _ h1, replicate_getD, padTo_getD, padTo_getD,
      List.getD_eq_default _ _ hi1]
    norm_num

/-- Witness for `merge_tail_equals_second_stream` at the mono streams
`[1/2]` and `[0, 1/4]`: the sum `[1/2, 1/4]` does not clip, and the
output sample at index 1 is exactly the second stream amplitude 1/4. -/
theorem merge_tail_equals_second_stream_witness :
    (merge_audio_files
        [⟨1, [[1/2]], 48000⟩, ⟨1, [[0], [1/4]], 48000⟩]).map
        (fun out => out.frames.getD 1 []) = Except.ok [(1/4 : ℚ)] := by
  obtain ⟨out, heq, hlen, htail⟩ := merge_tail_equals_second_stream
    ⟨1, [[1/2]], 48000⟩ ⟨1, [[0], [1/4]], 48000⟩ (by norm_num [monoOf])
  have hpk : maxAbs (mixedOf
      [⟨1, [[1/2]], 48000⟩, ⟨1, [[0], [1/4]], 48000⟩]) ≤ 1 := by
    norm_num [mixedOf, monos, monoOf, maxLen, padTo, addLists, maxAbs,
      abs_of_nonneg, List.replicate]
  have h := htail hpk 1 (by norm_num [monoOf]) (by norm_num [monoOf])
  rw [heq]
  simp only [Except.map, h]
  norm_num [monoOf]

/-- C5 counterexample: with threads finishing at time 0 and never (a hung
platform call), the join loop with its 10-unit timeout returns at time
20 while the second thread is still alive, so `record` goes on to merge
and return a path while a capture thread lives — `t.join(timeout=10)`
does not guarantee termination of the joined thread. -/
theorem hung_thread_alive_after_join_timeout :
    ¬ (∀ f ∈ [some 0, (none : Option ℕ)],
        threadAlive f (joinAll 10 0 [some 0, none]) = false) := by
  decide

/-- C5 amended: the join loop only guarantees that no capture thread is
alive at its return when every thread terminates within the bounded join
window (here: by `t0 + T` where `t0` is the time the loop is entered and
`T` the per-thread timeout); a thread exceeding its window may still be
alive when `record` returns the merged path. -/
theorem joins_terminate_all_threads_within_timeout (T t0 : ℕ)
    (fs : List (Option ℕ))
    (h : ∀ f ∈ fs, ∃ v, f = some v ∧ v ≤ t0 + T) :
    ∀ f ∈ fs, threadAlive f (joinAll T t0 fs) = false := by
  induction fs generalizing t0 with
  | nil => intro f hf; simp at hf
  | cons g tl ih =>
      intro f hf
      obtain ⟨v, hgv, hvle⟩ := h g (by simp)
      subst hgv
      have hstep : joinAll T t0 (some v :: tl) =
          joinAll T (joinDeadline T t0 (some v)) tl := rfl
      have hdl : v ≤ joinDeadline T t0 (some v) := by
        simp only [joinDeadline]
        omega
      have hmono : joinDeadline T t0 (some v) ≤
          joinAll T (joinDeadline T t0 (some v)) tl :=
        le_joinAll T tl _
      rcases List.mem_cons.mp hf with rfl | hmem
      · rw [hstep]
        simp only [threadAlive]
        have : v ≤ joinAll T (joinDeadline T t0 (some v)) tl :=
          le_trans hdl hmono
        simp only [decide_eq_false_iff_not, not_lt]
        exact this
      · rw [hstep]
        refine ih (joinDeadline T t0 (some v)) ?_ f hmem
        intro f2 hf2
        obtain ⟨v2, hv2, hv2le⟩ := h f2 (List.mem_cons_of_mem _ hf2)
        refine ⟨v2, hv2, le_trans hv2le ?_⟩
        have : t0 ≤ joinDeadline T t0 (some v) := by
          simp only [joinDeadline]
          omega
        omega

/-- Witness for `joins_terminate_all_threads_within_timeout`: two threads
finishing at times 3 and 7 are both terminated when the join loop with
timeout 10 entered at time 0 returns. -/
theorem joins_terminate_all_threads_within_timeout_witness :
    threadAlive (some 3) (joinAll 10 0 [some 3, some 7]) = false ∧
    threadAlive (some 7) (joinAll 10 0 [some 3, some 7]) = false := by
  have h := joins_terminate_all_threads_within_timeout 10 0
    [some 3, some 7]
    (by
      intro f hf
      simp only [List.mem_cons, List.not_mem_nil, or_false] at hf
      rcases hf with rfl | rfl
      · exact ⟨3, rfl, by omega⟩
      · exact ⟨7, rfl, by omega⟩)
  exact ⟨h (some 3) (by simp), h (some 7) (by simp)⟩

/-- C6: for the orchestrator and both capture sources, `stop` is
idempotent on every state — a second call is a no-op — and calling
`stop` on a recorder that is not recording (already finished) leaves the
state, and hence all files, unchanged. -/
theorem stop_idempotent_all_recorders
    (l : LegacyState) (n : NativeState) (m : MultiState) :
    LegacyState.stop (LegacyState.stop l) = LegacyState.stop l ∧
    NativeState.stop (NativeState.stop n) = NativeState.stop n ∧
    MultiState.stop (MultiState.stop m) = MultiState.stop m ∧
    (l.recording = false → LegacyState.stop l = l) ∧
    (n.isWriting = false → NativeState.stop n = n) ∧
    (m.isRecording = false → MultiState.stop m = m) := by
  refine ⟨?_, ?_, ?_, ?_, ?_, ?_⟩
  · by_cases h : l.recording <;> simp [LegacyState.stop, h]
  · by_cases h : n.isWriting <;> simp [NativeState.stop, h]
  · by_cases h : m.isRecording <;> simp [MultiState.stop, h]
  · intro h; simp [LegacyState.stop, h]
  · intro h; simp [NativeState.stop, h]
  · intro h; simp [MultiState.stop, h]

/-- Witness for `stop_idempotent_all_recorders` at concrete
already-finished states: `stop` leaves each of them unchanged. -/
theorem stop_idempotent_all_recorders_witness :
    LegacyState.stop ⟨false, false⟩ = ⟨false, false⟩ ∧
    NativeState.stop ⟨false, true, true, true, true, true⟩ =
      ⟨false, true, true, true, true, true⟩ ∧
    MultiState.stop ⟨[], false, [], "output", "recording.wav"⟩ =
      ⟨[], false, [], "output", "recording.wav"⟩ := by
  have h := stop_idempotent_all_recorders ⟨false, false⟩
    ⟨false, true, true, true, true, true⟩
    ⟨[], false, [], "output", "recording.wav"⟩
  exact ⟨h.2.2.2.1 rfl, h.2.2.2.2.1 rfl, h.2.2.2.2.2 rfl⟩

/-- C7 counterexample: constructing a `MultiRecorder` with an empty
source list succeeds — `__init__` performs no validation, so no error is
raised at construction time; the `ValueError` only fires inside the
later `record` call. -/
theorem init_empty_list_succeeds :
    MultiRecorder.init [] =
      Except.ok ⟨[], false, [], "output", "recording.wav"⟩ ∧
    MultiState.recordStart ⟨[], false, [], "output", "recording.wav"⟩
        "output" "recording.wav" =
      Except.error "MultiRecorder initialized with no sub-recorders" :=
  ⟨rfl, rfl⟩

/-- C7 amended: the constructor accepts any source list, the empty one
included, and the zero-source configuration error is raised by `record`:
the guard at the top of `record` raises `ValueError` when the stored
recorder list is empty, before any thread is launched. -/
theorem empty_recorders_rejected_at_record (rs : List SubState)
    (s : MultiState) (dir fn : String) :
    MultiRecorder.init rs =
      Except.ok ⟨rs, false, [], "output", "recording.wav"⟩ ∧
    (s.recorders = [] →
      s.recordStart dir fn =
        Except.error "MultiRecorder initialized with no sub-recorders") := by
  refine ⟨rfl, ?_⟩
  intro h
  simp [MultiState.recordStart, h]

/-- Witness for `empty_recorders_rejected_at_record` at the freshly
constructed empty orchestrator. -/
theorem empty_recorders_rejected_at_record_witness :
    MultiRecorder.init ([] : List SubState) =
      Except.ok ⟨[], false, [], "output", "recording.wav"⟩ ∧
    MultiState.recordStart ⟨[], false, [], "output", "recording.wav"⟩
        "out" "meeting.wav" =
      Except.error "MultiRecorder initialized with no sub-recorders" := by
  have h := empty_recorders_rejected_at_record []
    ⟨[], false, [], "output", "recording.wav"⟩ "out" "meeting.wav"
  exact ⟨h.1, h.2 rfl⟩

/-- C8 counterexample: a platform error inside `NativeRecorder.record`
is caught and only logged; the method returns the file path normally
instead of raising, so the error does not propagate for the
system-audio capture source. -/
theorem native_record_swallows_platform_error :
    NativeRecorder.recordResult "output/recording_part_1.wav"
        (.platformError "stream failure") =
      Except.ok "output/recording_part_1.wav" ∧
    (Except.ok "output/recording_part_1.wav" :
        Except String String) ≠ Except.error "stream failure" := by
  exact ⟨rfl, by simp⟩

/-- C8 amended: a platform error during `record` propagates to the
caller for the device capture source (`LegacyRecorder` re-raises), while
the system-audio capture source (`NativeRecorder`) catches every
exception and returns the path normally; neither source retries. -/
theorem record_error_propagation_per_recorder (p msg : String) :
    LegacyRecorder.recordResult p (.platformError msg) =
      Except.error msg ∧
    NativeRecorder.recordResult p (.platformError msg) = Except.ok p :=
  ⟨rfl, rfl⟩

/-- C9: when the merger raises on the non-empty valid path list, the
orchestrator merge phase does not propagate the exception: it returns
the first collected per-source path, or the empty string when nothing
was collected. -/
theorem merge_failure_degrades_to_first_path (files : List PartFile)
    (merge : List String → Except String String) (e : String)
    (hv : validPaths files ≠ [])
    (hm : merge (validPaths files) = .error e) :
    mergePhase files merge = (files.map (fun f => f.path)).headD "" := by
  simp only [mergePhase]
  rw [if_neg (by simp [hv]), hm]

/-- Witness for `merge_failure_degrades_to_first_path`: one valid
collected file and a merger that raises an I/O error; the phase returns
that file path. -/
theorem merge_failure_degrades_to_first_path_witness :
    mergePhase [⟨"output/recording_part_0.wav", true, 100⟩]
        (fun _ => Except.error "io failure") =
      "output/recording_part_0.wav" := by
  have h := merge_failure_degrades_to_first_path
    [⟨"output/recording_part_0.wav", true, 100⟩]
    (fun _ => Except.error "io failure") "io failure" (by decide) rfl
  rw [h]
  rfl

end MeetingAssistant
